import Mathlib

/-!
Verification development for the MaTTE multi-tenant transactional email
service.  The definitions below are a shallow embedding of the TypeScript
source: the template renderer and render cache
(`src/api/routes/templateRoutes.ts`, second half of the file, the
`TemplateRenderer` class and the legacy `renderTemplate` helper), the
template controller (`src/api/controllers/templateController.ts`), and the
email dispatch pipeline (`resolveTemplate`, `renderEmailContent`,
`sendEmail` in the email controller source file).

JavaScript-specific semantics that the code relies on (string/number
truthiness, `||` defaulting, 32-bit wrap-around in the hand-rolled hash,
insertion-ordered object serialization) are modelled explicitly.
-/

/-- Left curly brace character, used when modelling the `{{key}}`
placeholder grammar of the legacy renderer. -/
def lbrace : Char := Char.ofNat 123

/-- Right curly brace character. -/
def rbrace : Char := Char.ofNat 125

/-- JavaScript string truthiness: `undefined`/`null` and the empty string
are falsy.  Returns the string when truthy, `none` otherwise; `x || d`
over strings is `(jsStrTruthy x).getD d`. -/
def jsStrTruthy : Option String → Option String
  | some s => if s = "" then none else some s
  | none => none

/-- Primitive JavaScript values as they appear in template data objects and
variable maps (flat objects of primitives, which is what the templates and
the tests use). -/
inductive JsVal where
  | null
  | bool (b : Bool)
  | num (n : Int)
  | str (s : String)
  deriving DecidableEq, Repr

/-- A JavaScript object in insertion order: `TemplateData` /
`Record<string, any>` from the source, restricted to primitive values. -/
abbrev TemplateData := List (String × JsVal)

/-- Property lookup `obj[key]`: first binding wins (object keys are
unique). `none` models `undefined`. -/
def jsLookup (m : TemplateData) (key : String) : Option JsVal :=
  match m.find? (fun kv => kv.1 = key) with
  | some kv => some kv.2
  | none => none

/-- JavaScript `String(val)` on a primitive value. -/
def jsToString : JsVal → String
  | .null => "null"
  | .bool true => "true"
  | .bool false => "false"
  | .num n => toString n
  | .str s => s

/-- Escape a string for JSON output (quote and backslash; the inputs in
play contain no control characters). -/
def jsonEscape (s : String) : String :=
  String.mk (s.data.foldr
    (fun c acc =>
      if c = '"' then '\\' :: '"' :: acc
      else if c = '\\' then '\\' :: '\\' :: acc
      else c :: acc) [])

/-- Serialize one primitive value as `JSON.stringify` does. -/
def stringifyVal : JsVal → String
  | .null => "null"
  | .bool true => "true"
  | .bool false => "false"
  | .num n => toString n
  | .str s => "\"" ++ jsonEscape s ++ "\""

/-- `JSON.stringify(data)` for a flat object: keys in insertion order. -/
def jsonStringify (d : TemplateData) : String :=
  "\x7b" ++
    String.intercalate ","
      (d.map (fun kv => "\"" ++ jsonEscape kv.1 ++ "\":" ++ stringifyVal kv.2)) ++
  "\x7d"

/-- Reduce an integer to JavaScript's 32-bit signed range, as `x & x` and
`<<` do (ToInt32). -/
def toInt32 (n : Int) : Int :=
  ((n + 2 ^ 31) % 2 ^ 32) - 2 ^ 31

/-- One step of the hash loop in `TemplateRenderer.generateDataHash`:
`hash = ((hash << 5) - hash) + char; hash = hash & hash`.  The shift wraps
to 32 bits first; the subtraction and addition are exact; the `& hash`
reduces again. -/
def hashStep (h : Int) (c : Nat) : Int :=
  toInt32 (toInt32 (h * 32) - h + c)

/-- Digit character for base-36 output (`0-9a-z`), as
`Number.prototype.toString(36)` produces. -/
def base36digit (n : Nat) : Char :=
  if n < 10 then Char.ofNat (48 + n) else Char.ofNat (87 + n)

/-- Accumulate base-36 digits of `n` (most significant first); the fuel
argument only bounds the recursion and is in practice at least `n`. -/
def natToBase36Aux : Nat → Nat → List Char → List Char
  | 0, _, acc => acc
  | fuel + 1, n, acc =>
    if n = 0 then acc
    else natToBase36Aux fuel (n / 36) (base36digit (n % 36) :: acc)

/-- JavaScript `n.toString(36)` for a natural number. -/
def natToBase36 (n : Nat) : String :=
  if n = 0 then "0" else String.mk (natToBase36Aux n n [])

/-- `TemplateRenderer.generateDataHash`: hash of `JSON.stringify(data)`,
then `Math.abs(hash).toString(36)`. -/
def generateDataHash (d : TemplateData) : String :=
  natToBase36 ((jsonStringify d).data.foldl (fun h c => hashStep h c.toNat) 0).natAbs

/-- `TemplateRenderer.getCacheKey`: builds
`template_<templateId>_v<version>_<dataHash>`. -/
def getCacheKey (templateId : String) (version : Nat) (dataHash : String) : String :=
  "template_" ++ templateId ++ "_v" ++ toString version ++ "_" ++ dataHash

/-- JavaScript `String.prototype.startsWith`, modelled on the character
lists of the strings. -/
def jsStartsWith (s pre : String) : Bool :=
  pre.data.isPrefixOf s.data


/-! ### Legacy plain-substitution renderer

Embedding of the backward-compatibility `renderTemplate(input, vars)`
function: `input.replace(/\x7b\x7b\s*(\w+)\s*\x7d\x7d/g, ...)` replacing
each placeholder by the variable's string value, with `undefined`/`null`
replaced by the empty string. -/

/-- Regex class `\s` (the whitespace characters occurring in ASCII text). -/
def jsWs (c : Char) : Bool :=
  c = ' ' || c = '\t' || c = '\n' || c = '\r' || c = Char.ofNat 11 || c = Char.ofNat 12

/-- Regex class `\w`: `[A-Za-z0-9_]`. -/
def jsWord (c : Char) : Bool :=
  ('a' ≤ c && c ≤ 'z') || ('A' ≤ c && c ≤ 'Z') || ('0' ≤ c && c ≤ '9') || c = '_'

/-- Dropping a prefix by a predicate never lengthens a list. -/
theorem length_dropWhile_le (p : Char → Bool) (l : List Char) :
    (l.dropWhile p).length ≤ l.length := by
  induction l with
  | nil => simp
  | cons c cs ih =>
    by_cases h : p c
    · rw [List.dropWhile_cons_of_pos h]
      simp only [List.length_cons]
      omega
    · rw [List.dropWhile_cons_of_neg (by simpa using h)]

/-- Try to match the placeholder regex at the start of the character list:
two left braces, optional whitespace, one or more word characters (the
captured key), optional whitespace, two right braces.  Returns the key and
the remaining characters. -/
def matchPlaceholder (l : List Char) : Option (String × List Char) :=
  match l with
  | c1 :: c2 :: rest =>
    if c1 = lbrace ∧ c2 = lbrace then
      if (rest.dropWhile jsWs).takeWhile jsWord = [] then none
      else
        match ((rest.dropWhile jsWs).dropWhile jsWord).dropWhile jsWs with
        | d1 :: d2 :: r4 =>
          if d1 = rbrace ∧ d2 = rbrace then
            some (String.mk ((rest.dropWhile jsWs).takeWhile jsWord), r4)
          else none
        | _ => none
    else none
  | _ => none

/-- The replacement callback of `renderTemplate`:
`val === undefined || val === null ? '' : String(val)`. -/
def substVal (vars : TemplateData) (key : String) : String :=
  match jsLookup vars key with
  | none => ""
  | some .null => ""
  | some v => jsToString v

/-- Successfully matching a placeholder consumes at least the braces, so
the returned remainder is strictly shorter. -/
theorem matchPlaceholder_length {l : List Char} {k : String} {r : List Char}
    (h : matchPlaceholder l = some (k, r)) : r.length < l.length := by
  unfold matchPlaceholder at h
  split at h
  case h_2 => exact absurd h (by simp)
  case h_1 c1 c2 rest =>
    have hle : (((rest.dropWhile jsWs).dropWhile jsWord).dropWhile jsWs).length ≤
        rest.length :=
      le_trans (length_dropWhile_le _ _)
        (le_trans (length_dropWhile_le _ _) (length_dropWhile_le _ _))
    split at h
    · split at h
      · exact absurd h (by simp)
      · split at h
        next d1 d2 r4 heq =>
          split at h
          · rw [Option.some.injEq, Prod.mk.injEq] at h
            rw [heq] at hle
            simp only [List.length_cons] at hle
            rw [← h.2]
            simp only [List.length_cons]
            omega
          · exact absurd h (by simp)
        next heq => exact absurd h (by simp)
    · exact absurd h (by simp)

/-- The scanning loop of `String.prototype.replace` with a global regex:
at each position either replace a placeholder match or emit the character
and move one position forward. -/
def renderSubst (vars : TemplateData) (l : List Char) : List Char :=
  match h : matchPlaceholder l with
  | some kr => (substVal vars kr.1).data ++ renderSubst vars kr.2
  | none =>
    match l with
    | [] => []
    | c :: cs => c :: renderSubst vars cs
  termination_by l.length
  decreasing_by
  · exact matchPlaceholder_length h
  · simp

/-- The legacy `renderTemplate(input, vars)` utility: falsy input yields
`''`; absent vars returns the input unchanged; otherwise global
placeholder substitution. -/
def renderTemplate (input : Option String) (vars : Option TemplateData) : String :=
  match jsStrTruthy input with
  | none => ""
  | some s =>
    match vars with
    | none => s
    | some m => String.mk (renderSubst m s.data)

/-! ### Template records and the resolver -/

/-- A row of `tenant_templates` / the `TemplateRecord` interface.  The
database `id` is kept as a number (bigserial); the renderer stringifies it
with `toString`, mirroring `template.id.toString()`. -/
structure TemplateRow where
  id : Nat
  tenant_id : String
  name : String
  slug : String
  engine : String
  content : String
  subject_template : String
  plaintext_template : Option String
  version : Nat
  is_active : Bool
  deriving DecidableEq, Repr

/-- The row filter of `resolveTemplate`'s query:
`tenant_id = $1 AND slug = $2 AND is_active = true`. -/
def rowMatches (tenantId slug : String) (r : TemplateRow) : Bool :=
  r.tenant_id = tenantId && r.slug = slug && r.is_active

/-- `ORDER BY version DESC LIMIT 1` over a candidate list: the first row of
maximal version (ties keep the earlier row). -/
def orderByVersionDescHead : List TemplateRow → Option TemplateRow
  | [] => none
  | r :: rs =>
    match orderByVersionDescHead rs with
    | none => some r
    | some b => if b.version > r.version then some b else some r

/-- The `resolveTemplate` helper of the email controller: filter to active
rows of the tenant and slug; a truthy `version` argument (JavaScript: `if
(version)`, so `0` counts as absent) adds an exact version filter;
return the highest-version row, or `none` (404) when nothing matches. -/
def resolveTemplate (db : List TemplateRow) (tenantId slug : String)
    (version : Option Nat) : Option TemplateRow :=
  let base := db.filter (rowMatches tenantId slug)
  let candidates :=
    match version with
    | some v => if v ≠ 0 then base.filter (fun r => r.version = v) else base
    | none => base
  orderByVersionDescHead candidates

/-! ### The template renderer (`TemplateRenderer`)

The Handlebars, MJML, juice, DOMPurify and html-to-text libraries are
external collaborators; they are injected as pure functions (they are
deterministic text transformers), with the two compilers allowed to fail.
The renderer's observable side effects — the render cache and the number
of compile invocations — are threaded as explicit state. -/

/-- The injected third-party text engines. -/
structure Engines where
  hb : String → TemplateData → Except String String
  mjml : String → Except String String
  juiceF : String → String
  sanitize : String → String
  htmlToTextF : String → String

/-- The `RenderResult` interface: `{html, text, subject}`. -/
structure RenderResult where
  html : String
  text : String
  subject : String
  deriving DecidableEq, Repr

/-- The renderer's mutable state: the node-cache contents (newest entry
first) and a counter of compile invocations (the observable "compile side
effect" of the spec). -/
structure RState where
  cache : List (String × RenderResult)
  compileCount : Nat
  deriving DecidableEq, Repr

/-- `cache.get(key)`: first entry with the key. -/
def cacheGet (c : List (String × RenderResult)) (k : String) : Option RenderResult :=
  match c.find? (fun kv => kv.1 = k) with
  | some kv => some kv.2
  | none => none

/-- `cache.set(key, value)`: the new entry shadows any older one. -/
def cacheSet (c : List (String × RenderResult)) (k : String) (v : RenderResult) :
    List (String × RenderResult) :=
  (k, v) :: c

/-- `TemplateRenderer.compileTemplate`: one Handlebars compile+apply,
counted, with failures wrapped in a `Template compilation failed` error. -/
def compileTemplate (eng : Engines) (tpl : String) (data : TemplateData)
    (s : RState) : Except String String × RState :=
  let s1 : RState := { s with compileCount := s.compileCount + 1 }
  match eng.hb tpl data with
  | .ok r => (.ok r, s1)
  | .error e => (.error ("Template compilation failed: " ++ e), s1)

/-- `TemplateRenderer.generatePlainText`: a custom plaintext template is
expanded with Handlebars (counted as a compile; falling back to
auto-generation on failure); otherwise html-to-text derivation. -/
def generatePlainText (eng : Engines) (html : String)
    (plaintextTemplate : Option String) (data : Option TemplateData)
    (s : RState) : String × RState :=
  match plaintextTemplate, data with
  | some pt, some d =>
    let s1 : RState := { s with compileCount := s.compileCount + 1 }
    match eng.hb pt d with
    | .ok r => (r, s1)
    | .error _ => (eng.htmlToTextF html, s1)
  | _, _ => (eng.htmlToTextF html, s)

namespace TemplateRenderer

/-- `TemplateRenderer.renderTemplate`: compute the cache key from the
record id, effective version and data fingerprint; answer from the cache
on a hit; otherwise compile subject and content, optionally run the MJML
compiler, inline CSS, sanitize, produce plaintext, store in the cache and
return.  Failures are wrapped in `Template rendering failed`. -/
def renderTemplate (eng : Engines) (rec : TemplateRow) (data : TemplateData)
    (version : Option Nat) (s : RState) : Except String RenderResult × RState :=
  let templateVersion :=
    match version with
    | some v => if v ≠ 0 then v else rec.version
    | none => rec.version
  let cacheKey := getCacheKey (toString rec.id) templateVersion (generateDataHash data)
  match cacheGet s.cache cacheKey with
  | some cached => (.ok cached, s)
  | none =>
    match compileTemplate eng rec.subject_template data s with
    | (.error e, s1) => (.error ("Template rendering failed: Error: " ++ e), s1)
    | (.ok subj, s1) =>
      match compileTemplate eng rec.content data s1 with
      | (.error e, s2) => (.error ("Template rendering failed: Error: " ++ e), s2)
      | (.ok c0, s2) =>
        match (if rec.engine = "mjml" then eng.mjml c0 else .ok c0) with
        | .error e => (.error ("Template rendering failed: Error: MJML processing failed: " ++ e), s2)
        | .ok c1 =>
          let c2 := eng.sanitize (eng.juiceF c1)
          match generatePlainText eng c2 rec.plaintext_template (some data) s2 with
          | (text, s3) =>
            let result : RenderResult := { html := c2, text := text, subject := subj }
            (.ok result, { s3 with cache := cacheSet s3.cache cacheKey result })

/-- `TemplateRenderer.invalidateTemplateCache`: delete every cache entry
whose key starts with `template_<templateId>_`. -/
def invalidateTemplateCache (templateId : String)
    (c : List (String × RenderResult)) : List (String × RenderResult) :=
  c.filter (fun kv => !(jsStartsWith kv.1 ("template_" ++ templateId ++ "_")))

/-- `TemplateRenderer.clearCache`: `cache.flushAll()`. -/
def clearCache (_c : List (String × RenderResult)) : List (String × RenderResult) :=
  []

end TemplateRenderer

/-! ### Template controller: update and delete -/

/-- The `UpdateTemplateRequest` body.  `plaintextTemplate` distinguishes
"absent" (outer `none`) from an explicit `null` (inner `none`). -/
structure UpdateReq where
  name : Option String
  engine : Option String
  content : Option String
  subjectTemplate : Option String
  plaintextTemplate : Option (Option String)
  isActive : Option Bool
  deriving DecidableEq, Repr

/-- JavaScript `v || null` on a nullable string: empty string and `null`
become `null`. -/
def jsStrOrNull : Option String → Option String
  | some s => if s = "" then none else some s
  | none => none

/-- Engine validation: `['handlebars', 'mjml'].includes(engine)` for a
provided engine. -/
def validEngine : Option String → Bool
  | some e => e = "handlebars" || e = "mjml"
  | none => true

/-- Content size check (10KB limit) when content is provided. -/
def contentTooLong : Option String → Bool
  | some c => 10240 < c.length
  | none => false

/-- Subject size check (500 characters) when provided. -/
def subjectTooLong : Option String → Bool
  | some s => 500 < s.length
  | none => false

/-- Plaintext size check: only a truthy provided value is measured
(`updates.plaintextTemplate && updates.plaintextTemplate.length > 10240`). -/
def plaintextTooLong : Option (Option String) → Bool
  | some (some s) => !(s = "") && 10240 < s.length
  | _ => false

/-- True when no updatable field was provided (`updates_list` empty). -/
def noUpdates (u : UpdateReq) : Bool :=
  u.name.isNone && u.engine.isNone && u.content.isNone &&
  u.subjectTemplate.isNone && u.plaintextTemplate.isNone && u.isActive.isNone

/-- `SELECT COALESCE(MAX(version), 0) FROM tenant_templates WHERE tenant_id
= $1 AND slug = $2` (no active filter). -/
def maxSlugVersion (db : List TemplateRow) (tenantId slug : String) : Nat :=
  (db.filter (fun r => r.tenant_id = tenantId && r.slug = slug)).foldl
    (fun m r => max m r.version) 0

/-- The in-place `UPDATE` of the non-versioning branch: only the provided
non-rendering fields are written (content and engine are necessarily
absent in this branch). -/
def applyInPlace (u : UpdateReq) (r : TemplateRow) : TemplateRow :=
  { r with
    name := u.name.getD r.name
    subject_template := u.subjectTemplate.getD r.subject_template
    plaintext_template :=
      match u.plaintextTemplate with
      | some v => jsStrOrNull v
      | none => r.plaintext_template
    is_active := u.isActive.getD r.is_active }

/-- `updateTemplate` of the template controller.  `newId` is the serial id
the store would assign to an inserted row.  Returns the new table contents
and the `versionCreated` flag of the response. -/
def updateTemplate (db : List TemplateRow) (newId id : Nat) (u : UpdateReq) :
    Except String (List TemplateRow × Bool) :=
  match db.find? (fun r => r.id = id) with
  | none => .error "Template not found"
  | some cur =>
    if !validEngine u.engine then .error "Engine must be handlebars or mjml"
    else if contentTooLong u.content then .error "Content exceeds 10KB limit"
    else if subjectTooLong u.subjectTemplate then
      .error "Subject template exceeds 500 character limit"
    else if plaintextTooLong u.plaintextTemplate then
      .error "Plaintext template exceeds 10KB limit"
    else if noUpdates u then .error "No valid updates provided"
    else if u.content.isSome || u.engine.isSome then
      .ok (db ++ [{
        id := newId
        tenant_id := cur.tenant_id
        name := (jsStrTruthy u.name).getD cur.name
        slug := cur.slug
        engine := (jsStrTruthy u.engine).getD cur.engine
        content := (jsStrTruthy u.content).getD cur.content
        subject_template := (jsStrTruthy u.subjectTemplate).getD cur.subject_template
        plaintext_template :=
          match u.plaintextTemplate with
          | some v => v
          | none => cur.plaintext_template
        version := maxSlugVersion db cur.tenant_id cur.slug + 1
        is_active := u.isActive.getD cur.is_active }], true)
    else
      .ok (db.map (fun r => if r.id = id then applyInPlace u r else r), false)

/-- `deleteTemplate`: 404 when the id is unknown, otherwise
`UPDATE tenant_templates SET is_active = false WHERE id = $1`. -/
def deleteTemplate (db : List TemplateRow) (id : Nat) :
    Except String (List TemplateRow) :=
  match db.find? (fun r => r.id = id) with
  | none => .error "Template not found"
  | some _ =>
    .ok (db.map (fun r => if r.id = id then { r with is_active := false } else r))

/-! ### Dispatch pipeline: retry loop, log store, sendEmail -/

/-- A nodemailer error `code`: either a string code (`'ETIMEDOUT'`) or a
numeric SMTP code. -/
inductive ErrCode where
  | str (s : String)
  | num (n : Int)
  deriving DecidableEq, Repr

/-- An error thrown by `transporter.sendMail`. -/
structure SendError where
  code : Option ErrCode
  responseCode : Option Int
  message : String
  deriving DecidableEq, Repr

/-- The transient network-level codes of `shouldRetry`. -/
def transientCodes : List String := ["ETIMEDOUT", "ESOCKET", "ECONNRESET", "EAI_AGAIN"]

/-- JavaScript truthiness of an error-code value: `undefined`, `''` and
`0` are falsy. -/
def codeTruthy : Option ErrCode → Option ErrCode
  | some (.str s) => if s = "" then none else some (.str s)
  | some (.num n) => if n = 0 then none else some (.num n)
  | none => none

/-- Value of a plain digit run, `none` otherwise. -/
def parseDigits (l : List Char) : Option Nat :=
  if l = [] then none
  else if l.all Char.isDigit then
    some (l.foldl (fun acc c => acc * 10 + (c.toNat - 48)) 0)
  else none

/-- `Number(rc)`: numbers pass through; strings are parsed when they are
plain digit runs (the string codes in play parse to `NaN`, modelled as
`none`). -/
def jsNumber : ErrCode → Option Int
  | .num n => some n
  | .str s => (parseDigits s.data).map Int.ofNat

/-- The `shouldRetry` classifier of `sendEmail`: a listed transient string
code, or an SMTP-style temporary response code 421/450/451/452 read from
`err.responseCode || err.code`. -/
def shouldRetry (err : SendError) : Bool :=
  (match err.code with
   | some (.str s) => transientCodes.contains s
   | _ => false) ||
  (match
    (match err.responseCode with
     | some n => if n = 0 then codeTruthy err.code else some (.num n)
     | none => codeTruthy err.code) with
   | some c =>
     match jsNumber c with
     | some n => n = 421 || n = 450 || n = 451 || n = 452
     | none => false
   | none => false)

/-- How the retry loop exited: `success` when `info` was set, `failure`
when it ended with `lastError` set (the error is re-thrown), `skipped`
when the loop body never ran (`maxAttempts < 1`). -/
inductive LoopExit where
  | success (info : String)
  | failure (err : SendError)
  | skipped
  deriving DecidableEq, Repr

/-- Observable outcome of the retry loop: exit state, number of transport
invocations, and the backoff sleeps in order. -/
structure RetryOutcome where
  result : LoopExit
  attempts : Nat
  sleeps : List Nat
  deriving DecidableEq, Repr

/-- The retry `for` loop of `sendEmail`, structurally recursed on the
remaining iterations (`fuel` = `maxAttempts - attempt + 1`): try the
transport; on success stop; on failure stop when the ceiling is reached or
the error is not transient, otherwise sleep `baseDelay * 2^(attempt-1)`
and retry. -/
def retryGo (send : Nat → Except SendError String) (maxAttempts baseDelay : Nat) :
    Nat → Nat → RetryOutcome
  | 0, _ => { result := .skipped, attempts := 0, sleeps := [] }
  | fuel + 1, attempt =>
    match send attempt with
    | .ok info => { result := .success info, attempts := 1, sleeps := [] }
    | .error err =>
      if maxAttempts ≤ attempt ∨ shouldRetry err = false then
        { result := .failure err, attempts := 1, sleeps := [] }
      else
        let rest := retryGo send maxAttempts baseDelay fuel (attempt + 1)
        { result := rest.result
          attempts := rest.attempts + 1
          sleeps := baseDelay * 2 ^ (attempt - 1) :: rest.sleeps }

/-- The whole retry phase: attempts numbered from 1 up to `maxAttempts`. -/
def sendEmailRetry (send : Nat → Except SendError String)
    (maxAttempts baseDelay : Nat) : RetryOutcome :=
  retryGo send maxAttempts baseDelay maxAttempts 1

/-- A row of `email_logs` (the columns the dispatch pipeline touches). -/
structure EmailLogRow where
  id : Nat
  tenant_id : String
  to_address : String
  subject : String
  status : String
  error_message : Option String
  deriving DecidableEq, Repr

/-- The log store as seen through one client connection: committed rows, an
optional open-transaction working copy, and the serial counter (which, as
in Postgres, does not roll back). -/
structure LogDb where
  committed : List EmailLogRow
  txn : Option (List EmailLogRow)
  nextId : Nat
  deriving DecidableEq, Repr

/-- Rows visible to statements on this connection. -/
def LogDb.current (s : LogDb) : List EmailLogRow :=
  s.txn.getD s.committed

/-- Apply a statement's row changes: buffered while a transaction is open,
immediate otherwise. -/
def LogDb.put (s : LogDb) (rows : List EmailLogRow) : LogDb :=
  match s.txn with
  | some _ => { s with txn := some rows }
  | none => { s with committed := rows }

/-- `BEGIN`. -/
def LogDb.beginTxn (s : LogDb) : LogDb :=
  { s with txn := some s.committed }

/-- `COMMIT`. -/
def LogDb.commit (s : LogDb) : LogDb :=
  { committed := s.current, txn := none, nextId := s.nextId }

/-- `ROLLBACK` (outside a transaction it is a warning no-op). -/
def LogDb.rollback (s : LogDb) : LogDb :=
  { s with txn := none }

/-- `INSERT INTO email_logs ... RETURNING id` with status as given. -/
def LogDb.insertLog (s : LogDb) (tenantId toAddr subject status : String) :
    Nat × LogDb :=
  let row : EmailLogRow :=
    { id := s.nextId
      tenant_id := tenantId
      to_address := toAddr
      subject := subject
      status := status
      error_message := none }
  (s.nextId, { s.put (s.current ++ [row]) with nextId := s.nextId + 1 })

/-- `UPDATE email_logs SET status = 'sent', sent_at = ... WHERE id = $2`. -/
def LogDb.updateSent (s : LogDb) (id : Nat) : LogDb :=
  s.put (s.current.map (fun r => if r.id = id then { r with status := "sent" } else r))

/-- `UPDATE email_logs SET status = 'failed', error_message = $2 WHERE id = $3`. -/
def LogDb.updateFailed (s : LogDb) (id : Nat) (msg : String) : LogDb :=
  s.put (s.current.map (fun r =>
    if r.id = id then { r with status := "failed", error_message := some msg } else r))

/-- Tenant data used by the dispatch pipeline (transport credentials are
opaque to the claims). -/
structure Tenant where
  id : String
  from_email : String
  deriving DecidableEq, Repr

/-- The request body fields `sendEmail` reads in template mode, including
the raw legacy content that may accompany the template request. -/
structure SendBody where
  templateSlug : Option String
  templateData : Option TemplateData
  toRecipients : Option (List String)
  version : Option Nat
  ovSubject : Option String
  ovHtml : Option String
  ovText : Option String
  subject : Option String
  htmlBody : Option String
  textBody : Option String
  variablesMap : Option TemplateData
  deriving Repr

/-- Send mode: `Boolean(body.templateSlug)`. -/
inductive Mode where
  | legacy
  | template
  deriving DecidableEq, Repr

/-- Result shape of `renderEmailContent` (the `fallback` field is absent,
i.e. false, outside the fallback branch). -/
structure RenderedContent where
  subject : String
  html : String
  text : String
  rendered : Bool
  fallback : Bool
  deriving DecidableEq, Repr

/-- The legacy-mode / fallback body of `renderEmailContent`: direct
substitution of the raw `subject`/`htmlBody`/`textBody` fields. -/
def legacyContent (data : SendBody) (fallback : Bool) : RenderedContent :=
  { subject := (jsStrTruthy data.subject).getD "Email"
    html :=
      match jsStrTruthy data.htmlBody with
      | some h => renderTemplate (some h) data.variablesMap
      | none => ""
    text :=
      match jsStrTruthy data.textBody with
      | some t => renderTemplate (some t) data.variablesMap
      | none => ""
    rendered := false
    fallback := fallback }

/-- `renderEmailContent`: in template mode with a record and data, try the
template renderer (injected as `render`, the awaited collaborator call);
on success wrap its output, on ANY render error fall back to legacy-style
substitution of the raw content; otherwise legacy mode.  The `Except`
result mirrors the async function's ability to reject. -/
def renderEmailContent (mode : Mode) (data : SendBody)
    (templateRecord : Option TemplateRow) (templateData : Option TemplateData)
    (render : TemplateRow → TemplateData → Except String RenderResult) :
    Except String RenderedContent :=
  match mode, templateRecord, templateData with
  | .template, some rec, some td =>
    match render rec td with
    | .ok r =>
      .ok { subject := r.subject, html := r.html, text := r.text,
            rendered := true, fallback := false }
    | .error _ => .ok (legacyContent data true)
  | _, _, _ => .ok (legacyContent data false)

/-- Errors surfaced by `sendEmail` through `next(error)`. -/
inductive DispatchError where
  | appError (msg : String) (status : Nat)
  | deliveryError (e : SendError)
  deriving DecidableEq, Repr

/-- What one dispatch leaves behind: the log store, the response, and the
number of transport invocations. -/
structure DispatchResult where
  db : LogDb
  response : Except DispatchError String
  transportCalls : Nat
  deriving Repr

/-- The template-mode branch of `sendEmail` plus its shared catch block:
validate, resolve the template, render (with fallback), `BEGIN`, insert
the `sending` log row, run the transport retry loop; on success update the
row to `sent` and `COMMIT`; on a thrown delivery error `ROLLBACK` and then
update the row to `failed` with the error text (the catch block's
best-effort write), surfacing the error.  A `skipped` loop (ceiling < 1)
reaches the `sent` update and `COMMIT`, then crashes reading
`info.messageId`, which the catch block treats like any thrown error. -/
def sendEmailTemplate (tenant : Tenant) (body : SendBody)
    (templates : List TemplateRow)
    (render : TemplateRow → TemplateData → Except String RenderResult)
    (transport : Nat → Except SendError String)
    (maxAttempts baseDelay : Nat) (s0 : LogDb) : DispatchResult :=
  match body.templateData, body.toRecipients with
  | some td, some toL =>
    match jsStrTruthy body.templateSlug with
    | none =>
      { db := s0.rollback
        response := .error (.appError
          "Missing required fields for template mode: templateSlug, templateData, to" 400)
        transportCalls := 0 }
    | some slug =>
      match resolveTemplate templates tenant.id slug body.version with
      | none =>
        { db := s0.rollback
          response := .error (.appError ("Template not found: " ++ slug) 404)
          transportCalls := 0 }
      | some rec =>
        match renderEmailContent .template body (some rec) (some td) render with
        | .error e =>
          { db := s0.rollback
            response := .error (.appError e 500)
            transportCalls := 0 }
        | .ok rc =>
          let finalSubject := (jsStrTruthy body.ovSubject).getD rc.subject
          let s1 := s0.beginTxn
          match s1.insertLog tenant.id (String.intercalate ", " toL)
              finalSubject "sending" with
          | (logId, s2) =>
            let retry := sendEmailRetry transport maxAttempts baseDelay
            match retry.result with
            | .success mid =>
              { db := (s2.updateSent logId).commit
                response := .ok mid
                transportCalls := retry.attempts }
            | .failure err =>
              let msg := if err.message = "" then "Unknown error" else err.message
              { db := (s2.rollback).updateFailed logId msg
                response := .error (.deliveryError err)
                transportCalls := retry.attempts }
            | .skipped =>
              let s3 := ((s2.updateSent logId).commit).rollback
              { db := s3.updateFailed logId
                  "Cannot read properties of null (reading 'messageId')"
                response := .error (.appError
                  "Cannot read properties of null (reading 'messageId')" 500)
                transportCalls := 0 }
  | _, _ =>
    { db := s0.rollback
      response := .error (.appError
        "Missing required fields for template mode: templateSlug, templateData, to" 400)
      transportCalls := 0 }

/-! ### Shared lemmas about the resolver -/

/-- `ORDER BY ... LIMIT 1` returns a row whenever the candidate list is
nonempty. -/
theorem orderByVersionDescHead_eq_none : ∀ {l : List TemplateRow},
    orderByVersionDescHead l = none → l = [] := by
  intro l h
  cases l with
  | nil => rfl
  | cons r rs =>
    exfalso
    simp only [orderByVersionDescHead] at h
    cases hrec : orderByVersionDescHead rs with
    | none => rw [hrec] at h; simp at h
    | some b =>
      simp only [hrec] at h
      split at h <;> simp at h

/-- A returned row comes from the candidate list. -/
theorem orderByVersionDescHead_mem : ∀ {l : List TemplateRow} {t : TemplateRow},
    orderByVersionDescHead l = some t → t ∈ l := by
  intro l
  induction l with
  | nil => intro t h; simp [orderByVersionDescHead] at h
  | cons r rs ih =>
    intro t h
    simp only [orderByVersionDescHead] at h
    cases hrec : orderByVersionDescHead rs with
    | none =>
      rw [hrec] at h
      simp only [Option.some.injEq] at h
      simp [← h]
    | some b =>
      rw [hrec] at h
      by_cases hv : b.version > r.version
      · simp only [hv, if_true, Option.some.injEq] at h
        exact List.mem_cons_of_mem r (ih (hrec.trans (by rw [h])))
      · simp only [hv, if_false, Option.some.injEq] at h
        simp [← h]

/-- A returned row has the maximal version among the candidates. -/
theorem orderByVersionDescHead_max : ∀ {l : List TemplateRow} {t : TemplateRow},
    orderByVersionDescHead l = some t → ∀ r ∈ l, r.version ≤ t.version := by
  intro l
  induction l with
  | nil => intro t h; simp [orderByVersionDescHead] at h
  | cons r rs ih =>
    intro t h x hx
    simp only [orderByVersionDescHead] at h
    cases hrec : orderByVersionDescHead rs with
    | none =>
      rw [hrec] at h
      simp only [Option.some.injEq] at h
      have hnil : rs = [] := orderByVersionDescHead_eq_none hrec
      subst hnil
      rcases List.mem_cons.mp hx with hx | hx
      · rw [hx, h]
      · simp at hx
    | some b =>
      rw [hrec] at h
      by_cases hv : b.version > r.version
      · simp only [hv, if_true, Option.some.injEq] at h
        subst h
        rcases List.mem_cons.mp hx with hx | hx
        · subst hx; omega
        · exact ih hrec x hx
      · simp only [hv, if_false, Option.some.injEq] at h
        subst h
        rcases List.mem_cons.mp hx with hx | hx
        · subst hx; exact le_refl _
        · exact le_trans (ih hrec x hx) (by omega)

/-- The full candidate predicate of the resolver's SQL query: the row
filter plus the optional (truthy) exact-version condition. -/
def resolveCandidate (tenantId slug : String) (version : Option Nat)
    (r : TemplateRow) : Bool :=
  rowMatches tenantId slug r &&
    (match version with
     | some v => if v ≠ 0 then r.version = v else true
     | none => true)

/-- The two-stage filtering of `resolveTemplate` equals one filter by the
full candidate predicate. -/
theorem resolveTemplate_eq_filter (db : List TemplateRow) (tenantId slug : String)
    (version : Option Nat) :
    resolveTemplate db tenantId slug version =
      orderByVersionDescHead (db.filter (resolveCandidate tenantId slug version)) := by
  cases version with
  | none =>
    simp only [resolveTemplate, List.filter_filter]
    exact congrArg _ (List.filter_congr (fun a _ => by simp [resolveCandidate]))
  | some v =>
    by_cases hv : v ≠ 0
    · simp only [resolveTemplate]
      rw [if_pos hv, List.filter_filter]
      exact congrArg _ (List.filter_congr (fun a _ => by
        simp [resolveCandidate, hv, Bool.and_comm]))
    · simp only [resolveTemplate]
      rw [if_neg hv]
      exact congrArg _ (List.filter_congr (fun a _ => by simp [resolveCandidate, hv]))

/-- A resolved row is a member of the table and satisfies the full
candidate predicate. -/
theorem resolveTemplate_some_candidate {db : List TemplateRow}
    {tenantId slug : String} {version : Option Nat} {t : TemplateRow}
    (h : resolveTemplate db tenantId slug version = some t) :
    t ∈ db ∧ resolveCandidate tenantId slug version t = true := by
  rw [resolveTemplate_eq_filter] at h
  have hmem := orderByVersionDescHead_mem h
  exact ⟨(List.mem_filter.mp hmem).1, (List.mem_filter.mp hmem).2⟩

/-- A resolved row has the maximal version among all candidate rows. -/
theorem resolveTemplate_some_max {db : List TemplateRow}
    {tenantId slug : String} {version : Option Nat} {t : TemplateRow}
    (h : resolveTemplate db tenantId slug version = some t) :
    ∀ r ∈ db, resolveCandidate tenantId slug version r = true →
      r.version ≤ t.version := by
  rw [resolveTemplate_eq_filter] at h
  intro r hr hc
  exact orderByVersionDescHead_max h r (List.mem_filter.mpr ⟨hr, hc⟩)

/-- `NotFound` only happens when no row satisfies the candidate
predicate. -/
theorem resolveTemplate_none {db : List TemplateRow}
    {tenantId slug : String} {version : Option Nat}
    (h : resolveTemplate db tenantId slug version = none) :
    ∀ r ∈ db, resolveCandidate tenantId slug version r = false := by
  rw [resolveTemplate_eq_filter] at h
  have hempty := orderByVersionDescHead_eq_none h
  intro r hr
  by_contra hc
  have : r ∈ List.filter (resolveCandidate tenantId slug version) db :=
    List.mem_filter.mpr ⟨hr, by revert hc; cases resolveCandidate tenantId slug version r <;> simp⟩
  rw [hempty] at this
  simp at this

/-- Sample active template row used by concrete instances below. -/
def rowA : TemplateRow :=
  { id := 1
    tenant_id := "t1"
    name := "Contact"
    slug := "contact-form"
    engine := "handlebars"
    content := "C"
    subject_template := "A"
    plaintext_template := none
    version := 1
    is_active := true }

/-- C7, counterexample.  `resolveTemplate` is called with an explicitly
given version argument `0`; because the code tests the argument with
JavaScript truthiness (`if (version)`), the pin is silently dropped and
the highest active version (here version 1) is returned instead of
"only the record with exactly that version". -/
theorem resolveTemplate_version_zero_pin_dropped :
    resolveTemplate [rowA] "t1" "contact-form" (some 0) = some rowA ∧
    rowA.version ≠ 0 := by
  exact ⟨rfl, by decide⟩

/-- C7 (amended): resolution filters to active rows of the given tenant
and slug; a NONZERO version argument is an exact pin (version `0` is
treated as absent, per JavaScript truthiness); otherwise the
highest-version candidate is returned; a row of another tenant, an
inactive row, or a row violating a nonzero pin is never returned, and
`none` is returned exactly when no candidate row exists. -/
theorem resolveTemplate_policy (db : List TemplateRow) (tenantId slug : String)
    (version : Option Nat) :
    (∀ t, resolveTemplate db tenantId slug version = some t →
      t ∈ db ∧ t.is_active = true ∧ t.tenant_id = tenantId ∧ t.slug = slug ∧
      (∀ v, version = some v → v ≠ 0 → t.version = v) ∧
      (∀ r ∈ db, resolveCandidate tenantId slug version r = true →
        r.version ≤ t.version)) ∧
    (resolveTemplate db tenantId slug version = none →
      ∀ r ∈ db, resolveCandidate tenantId slug version r = false) := by
  constructor
  · intro t h
    obtain ⟨hmem, hcand⟩ := resolveTemplate_some_candidate h
    have hrow : rowMatches tenantId slug t = true := by
      revert hcand
      unfold resolveCandidate
      cases rowMatches tenantId slug t <;> simp
    have hfields := hrow
    unfold rowMatches at hfields
    simp only [Bool.and_eq_true, decide_eq_true_eq] at hfields
    refine ⟨hmem, hfields.2, hfields.1.1, hfields.1.2, ?_, resolveTemplate_some_max h⟩
    intro v hv hv0
    subst hv
    revert hcand
    simp only [resolveCandidate]
    rw [if_pos hv0]
    cases rowMatches tenantId slug t <;> simp
  · exact resolveTemplate_none

/-- Closed instance of the amended C7 policy at a one-row table. -/
theorem resolveTemplate_policy_witness :
    rowA ∈ [rowA] ∧ rowA.is_active = true ∧ rowA.tenant_id = "t1" ∧
    rowA.slug = "contact-form" ∧
    (∀ v, (none : Option Nat) = some v → v ≠ 0 → rowA.version = v) ∧
    (∀ r ∈ [rowA], resolveCandidate "t1" "contact-form" none r = true →
      r.version ≤ rowA.version) :=
  (resolveTemplate_policy [rowA] "t1" "contact-form" none).1 rowA rfl

/-- The row of `rowA` after soft deletion. -/
def rowADeleted : TemplateRow := { rowA with is_active := false }

/-- C6, counterexample.  Deleting the only version of a template keeps the
row (soft delete), but a pinned-version lookup of that tenant+slug+version
afterwards returns `none`: `resolveTemplate` demands `is_active = true`
even when a version is pinned, so the preserved history is NOT retrievable
through resolution, contrary to the claim. -/
theorem deleteTemplate_pinned_lookup_fails :
    deleteTemplate [rowA] 1 = .ok [rowADeleted] ∧
    resolveTemplate [rowADeleted] "t1" "contact-form" (some 1) = none := by
  exact ⟨rfl, rfl⟩

/-- C6 (amended): deletion is a soft deactivation that never removes rows:
the table keeps the same rows and ids, the deactivated rows only have
`is_active` cleared, other rows are untouched — but the deactivated
version becomes invisible to ALL resolution, pinned-version lookups
included, because resolution always filters on `is_active = true`. -/
theorem deleteTemplate_soft (db : List TemplateRow) (id : Nat)
    (db' : List TemplateRow) (h : deleteTemplate db id = .ok db') :
    db'.length = db.length ∧
    db'.map TemplateRow.id = db.map TemplateRow.id ∧
    (∀ r' ∈ db', r'.id = id → r'.is_active = false) ∧
    (∀ r' ∈ db', r'.id ≠ id → r' ∈ db) ∧
    (∀ tenantId slug version t,
      resolveTemplate db' tenantId slug version = some t → t.id ≠ id) := by
  unfold deleteTemplate at h
  cases hf : db.find? (fun r => r.id = id) with
  | none => rw [hf] at h; exact absurd h (by simp)
  | some cur =>
    rw [hf] at h
    simp only [Except.ok.injEq] at h
    subst h
    refine ⟨by simp, ?_, ?_, ?_, ?_⟩
    · rw [List.map_map]
      exact List.map_congr_left (fun r _ => by
        by_cases hid : r.id = id <;> simp [hid])
    · intro r' hr' hid
      obtain ⟨r, hr, hmap⟩ := List.mem_map.mp hr'
      by_cases h2 : r.id = id
      · rw [if_pos h2] at hmap
        rw [← hmap]
      · rw [if_neg h2] at hmap
        rw [← hmap] at hid
        exact absurd hid h2
    · intro r' hr' hid
      obtain ⟨r, hr, hmap⟩ := List.mem_map.mp hr'
      by_cases h2 : r.id = id
      · rw [if_pos h2] at hmap
        rw [← hmap] at hid
        exact absurd h2 (by simpa using hid)
      · rw [if_neg h2] at hmap
        rw [← hmap]
        exact hr
    · intro tenantId slug version t hres hid
      obtain ⟨hmem, hcand⟩ := resolveTemplate_some_candidate hres
      have hact : t.is_active = true := by
        revert hcand
        unfold resolveCandidate rowMatches
        cases hx : t.is_active <;> simp [hx]
      obtain ⟨r, hr, hmap⟩ := List.mem_map.mp hmem
      by_cases h2 : r.id = id
      · rw [if_pos h2] at hmap
        rw [← hmap] at hact
        simp at hact
      · rw [if_neg h2] at hmap
        rw [← hmap] at hid
        exact absurd hid h2

/-- Closed instance of the amended C6 statement on a two-row table. -/
theorem deleteTemplate_soft_witness :
    ([{ rowA with is_active := false }, { rowA with id := 2, version := 2 }] :
        List TemplateRow).length = ([rowA, { rowA with id := 2, version := 2 }] :
        List TemplateRow).length ∧
    ([{ rowA with is_active := false }, { rowA with id := 2, version := 2 }].map
        TemplateRow.id) = ([rowA, { rowA with id := 2, version := 2 }].map
        TemplateRow.id) ∧
    (∀ r' ∈ [{ rowA with is_active := false }, { rowA with id := 2, version := 2 }],
      r'.id = 1 → r'.is_active = false) ∧
    (∀ r' ∈ [{ rowA with is_active := false }, { rowA with id := 2, version := 2 }],
      r'.id ≠ 1 → r' ∈ [rowA, { rowA with id := 2, version := 2 }]) ∧
    (∀ tenantId slug version t,
      resolveTemplate [{ rowA with is_active := false },
        { rowA with id := 2, version := 2 }] tenantId slug version = some t →
      t.id ≠ 1) :=
  deleteTemplate_soft [rowA, { rowA with id := 2, version := 2 }] 1
    [{ rowA with is_active := false }, { rowA with id := 2, version := 2 }] rfl

/-! ### Claim C4: versioning in updateTemplate -/

/-- A fold of `max` over versions dominates the initial accumulator. -/
theorem foldl_max_ge_init : ∀ (l : List TemplateRow) (a : Nat),
    a ≤ l.foldl (fun m r => max m r.version) a := by
  intro l
  induction l with
  | nil => intro a; simp
  | cons x xs ih =>
    intro a
    simp only [List.foldl_cons]
    exact le_trans (Nat.le_max_left a x.version) (ih (max a x.version))

/-- A fold of `max` over versions dominates every member's version. -/
theorem foldl_max_ge_mem : ∀ (l : List TemplateRow) (a : Nat),
    ∀ r ∈ l, r.version ≤ l.foldl (fun m r => max m r.version) a := by
  intro l
  induction l with
  | nil => intro a r hr; simp at hr
  | cons x xs ih =>
    intro a r hr
    simp only [List.foldl_cons]
    rcases List.mem_cons.mp hr with hr | hr
    · subst hr
      exact le_trans (Nat.le_max_right a r.version) (foldl_max_ge_init xs _)
    · exact ih (max a x.version) r hr

/-- `MAX(version)` over a tenant+slug dominates every matching row. -/
theorem maxSlugVersion_ge {db : List TemplateRow} {tenantId slug : String}
    {r : TemplateRow} (hr : r ∈ db) (ht : r.tenant_id = tenantId)
    (hs : r.slug = slug) : r.version ≤ maxSlugVersion db tenantId slug := by
  unfold maxSlugVersion
  exact foldl_max_ge_mem _ 0 r (List.mem_filter.mpr ⟨hr, by simp [ht, hs]⟩)

/-- An update request touching only the subject template. -/
def updSubject : UpdateReq :=
  { name := none, engine := none, content := none,
    subjectTemplate := some "B", plaintextTemplate := none, isActive := none }

/-- C4, counterexample.  An update that edits only `subjectTemplate` — a
rendering-affecting text the claim says is immutable in place — takes the
non-versioning branch (`isVersionUpdate` checks only content/engine): the
existing row's subject text is overwritten from `"A"` to `"B"`, no new
version row is created, and the response reports `versionCreated: false`. -/
theorem updateTemplate_subject_mutates_in_place :
    updateTemplate [rowA] 2 1 updSubject =
      .ok ([{ rowA with subject_template := "B" }], false) ∧
    rowA.subject_template = "A" :=
  ⟨rfl, rfl⟩

/-- C4 (amended): only edits touching `content` or `engine` create a new
version row — appended to the table with version = highest existing
version for that tenant+slug plus one, all existing rows unchanged.  Every
other edit (name, active flag, but ALSO subjectTemplate and
plaintextTemplate) mutates the existing row in place with no version bump;
the in-place path still never changes content, engine or version. -/
theorem updateTemplate_versioning (db : List TemplateRow) (newId id : Nat)
    (u : UpdateReq) (db' : List TemplateRow) (created : Bool)
    (h : updateTemplate db newId id u = .ok (db', created)) :
    created = (u.content.isSome || u.engine.isSome) ∧
    (created = true → ∃ cur newRow,
      db.find? (fun r => r.id = id) = some cur ∧
      db' = db ++ [newRow] ∧
      newRow.tenant_id = cur.tenant_id ∧ newRow.slug = cur.slug ∧
      newRow.version = maxSlugVersion db cur.tenant_id cur.slug + 1 ∧
      (∀ r ∈ db, r.tenant_id = cur.tenant_id → r.slug = cur.slug →
        r.version < newRow.version)) ∧
    (created = false →
      db'.length = db.length ∧
      (∀ r ∈ db, r.id ≠ id → r ∈ db') ∧
      (∀ r' ∈ db', r'.id = id → ∃ r ∈ db, r.id = id ∧
        r'.content = r.content ∧ r'.engine = r.engine ∧
        r'.version = r.version)) := by
  unfold updateTemplate at h
  cases hf : db.find? (fun r => r.id = id) with
  | none => rw [hf] at h; exact absurd h (by simp)
  | some cur =>
    simp only [hf] at h
    split at h
    · exact absurd h (by simp)
    · split at h
      · exact absurd h (by simp)
      · split at h
        · exact absurd h (by simp)
        · split at h
          · exact absurd h (by simp)
          · split at h
            · exact absurd h (by simp)
            · split at h
              next hver =>
                simp only [Except.ok.injEq, Prod.mk.injEq] at h
                obtain ⟨hdb, hcr⟩ := h
                refine ⟨by rw [← hcr]; exact hver.symm, ?_, ?_⟩
                · intro _
                  refine ⟨cur, _, rfl, hdb.symm, rfl, rfl, rfl, ?_⟩
                  intro r hr ht hs
                  have := maxSlugVersion_ge hr ht hs
                  show r.version < maxSlugVersion db cur.tenant_id cur.slug + 1
                  omega
                · intro hfalse
                  rw [← hcr] at hfalse
                  simp at hfalse
              next hver =>
                simp only [Except.ok.injEq, Prod.mk.injEq] at h
                obtain ⟨hdb, hcr⟩ := h
                have hverf : (u.content.isSome || u.engine.isSome) = false := by
                  revert hver
                  cases u.content.isSome || u.engine.isSome <;> simp
                refine ⟨by rw [← hcr, hverf], ?_, ?_⟩
                · intro htrue
                  rw [← hcr] at htrue
                  simp at htrue
                · intro _
                  refine ⟨by rw [← hdb]; simp, ?_, ?_⟩
                  · intro r hr hid
                    rw [← hdb]
                    have hkeep : (if r.id = id then applyInPlace u r else r) = r :=
                      if_neg hid
                    rw [← hkeep]
                    exact List.mem_map_of_mem _ hr
                  · intro r' hr' hid
                    rw [← hdb] at hr'
                    obtain ⟨r, hr, hmap⟩ := List.mem_map.mp hr'
                    by_cases h2 : r.id = id
                    · rw [if_pos h2] at hmap
                      exact ⟨r, hr, h2, by rw [← hmap]; exact ⟨rfl, rfl, rfl⟩⟩
                    · rw [if_neg h2] at hmap
                      rw [← hmap] at hid
                      exact absurd hid h2

/-- An update request replacing the content. -/
def updContent : UpdateReq :=
  { name := none, engine := none, content := some "C2",
    subjectTemplate := none, plaintextTemplate := none, isActive := none }

/-- The version-2 row produced by applying `updContent` to `rowA`. -/
def rowNewV2 : TemplateRow := { rowA with id := 2, content := "C2", version := 2 }

/-- Closed instance of the amended C4 statement: a content edit on a
one-row table appends version 2 and reports `versionCreated`. -/
theorem updateTemplate_versioning_witness :
    true = (updContent.content.isSome || updContent.engine.isSome) ∧
    (true = true → ∃ cur newRow,
      ([rowA].find? (fun r => r.id = 1)) = some cur ∧
      [rowA, rowNewV2] = [rowA] ++ [newRow] ∧
      newRow.tenant_id = cur.tenant_id ∧ newRow.slug = cur.slug ∧
      newRow.version = maxSlugVersion [rowA] cur.tenant_id cur.slug + 1 ∧
      (∀ r ∈ [rowA], r.tenant_id = cur.tenant_id → r.slug = cur.slug →
        r.version < newRow.version)) ∧
    (true = false →
      ([rowA, rowNewV2] : List TemplateRow).length = ([rowA] : List TemplateRow).length ∧
      (∀ r ∈ [rowA], r.id ≠ 1 → r ∈ [rowA, rowNewV2]) ∧
      (∀ r' ∈ [rowA, rowNewV2], r'.id = 1 → ∃ r ∈ [rowA], r.id = 1 ∧
        r'.content = r.content ∧ r'.engine = r.engine ∧
        r'.version = r.version)) :=
  updateTemplate_versioning [rowA] 2 1 updContent [rowA, rowNewV2] true rfl

/-! ### Claim C5: render determinism and cache hits -/

/-- With the cache key already present, the renderer answers from the
cache and leaves the state untouched. -/
theorem renderTemplate_hit (eng : Engines) (rec : TemplateRow)
    (data : TemplateData) (s : RState) (r : RenderResult)
    (h : cacheGet s.cache
      (getCacheKey (toString rec.id) rec.version (generateDataHash data)) = some r) :
    TemplateRenderer.renderTemplate eng rec data none s = (.ok r, s) := by
  unfold TemplateRenderer.renderTemplate
  simp only [h]

/-- C5: rendering the same record and data twice returns identical
results, and the second call is a cache hit: it returns the identical
state (in particular, no compile invocation is counted) because the first
successful call left the result under the computed cache key. -/
theorem renderTemplate_deterministic_cached (eng : Engines) (rec : TemplateRow)
    (data : TemplateData) (s : RState) (r : RenderResult) (s₁ : RState)
    (h : TemplateRenderer.renderTemplate eng rec data none s = (.ok r, s₁)) :
    TemplateRenderer.renderTemplate eng rec data none s₁ = (.ok r, s₁) ∧
    cacheGet s₁.cache
      (getCacheKey (toString rec.id) rec.version (generateDataHash data)) = some r := by
  have hget : cacheGet s₁.cache
      (getCacheKey (toString rec.id) rec.version (generateDataHash data)) = some r := by
    unfold TemplateRenderer.renderTemplate at h
    cases hg : cacheGet s.cache
        (getCacheKey (toString rec.id) rec.version (generateDataHash data)) with
    | some c =>
      simp only [hg] at h
      rw [Prod.mk.injEq] at h
      obtain ⟨hr, hs⟩ := h
      rw [← hs]
      rw [hg, Option.some.injEq]
      exact Except.ok.inj hr
    | none =>
      simp only [hg] at h
      cases hc1 : compileTemplate eng rec.subject_template data s with
      | mk res1 st1 =>
        cases res1 with
        | error e =>
          simp only [hc1] at h
          rw [Prod.mk.injEq] at h
          exact absurd h.1 (by simp)
        | ok subj =>
          simp only [hc1] at h
          cases hc2 : compileTemplate eng rec.content data st1 with
          | mk res2 st2 =>
            cases res2 with
            | error e =>
              simp only [hc2] at h
              rw [Prod.mk.injEq] at h
              exact absurd h.1 (by simp)
            | ok c0 =>
              simp only [hc2] at h
              cases hm : (if rec.engine = "mjml" then eng.mjml c0 else .ok c0) with
              | error e =>
                simp only [hm] at h
                rw [Prod.mk.injEq] at h
                exact absurd h.1 (by simp)
              | ok c1 =>
                simp only [hm] at h
                cases hpt : generatePlainText eng (eng.sanitize (eng.juiceF c1))
                    rec.plaintext_template (some data) st2 with
                | mk text st3 =>
                  simp only [hpt] at h
                  rw [Prod.mk.injEq] at h
                  obtain ⟨hr, hs⟩ := h
                  rw [← hs]
                  simp only [cacheSet, cacheGet, List.find?]
                  simp only [decide_eq_true_eq, decide_True]
                  rw [Option.some.injEq]
                  exact Except.ok.inj hr
  exact ⟨renderTemplate_hit eng rec data s₁ r hget, hget⟩

/-- Sample engine bundle: Handlebars echoes the template, the
post-processors are identities, text derivation is constant. -/
def engSample : Engines :=
  { hb := fun tpl _ => .ok tpl
    mjml := fun s => .ok s
    juiceF := fun s => s
    sanitize := fun s => s
    htmlToTextF := fun _ => "T" }

/-- Empty renderer state. -/
def rstate0 : RState := { cache := [], compileCount := 0 }

/-- The render result of `rowA` under `engSample` with empty data. -/
def c5Result : RenderResult := { html := "C", text := "T", subject := "A" }

/-- Renderer state after the first render of `rowA` with empty data. -/
def c5State1 : RState :=
  { cache := [("template_1_v1_31e", c5Result)], compileCount := 2 }

/-- Closed instance of C5: the second render of `rowA` with the same data
returns the identical result and state. -/
theorem renderTemplate_deterministic_cached_witness :
    TemplateRenderer.renderTemplate engSample rowA [] none c5State1 =
      (.ok c5Result, c5State1) ∧
    cacheGet c5State1.cache
      (getCacheKey (toString rowA.id) rowA.version (generateDataHash [])) =
      some c5Result :=
  renderTemplate_deterministic_cached engSample rowA [] rstate0 c5Result c5State1 rfl

/-! ### Claim C9: order sensitivity of the data fingerprint -/

/-- Data object with keys in order `a`, `b`. -/
def c9d1 : TemplateData := [("a", JsVal.num 1), ("b", JsVal.num 2)]

/-- The same key-value pairs in the opposite order. -/
def c9d2 : TemplateData := [("b", JsVal.num 2), ("a", JsVal.num 1)]

/-- Renderer state after rendering `rowA` with data `c9d1`. -/
def c9State1 : RState :=
  { cache := [("template_1_v1_kz8hg0", c5Result)], compileCount := 2 }

set_option maxRecDepth 8192 in
/-- C9: the fingerprint is order-sensitive.  `c9d1` and `c9d2` hold the
same key-value pairs (they are permutations) yet fingerprint differently,
so their cache keys differ and a render with the reordered data misses the
cache and re-invokes the compile step (the compile counter advances);
while any two data objects with the same serialized form fingerprint
identically. -/
theorem generateDataHash_order_sensitive :
    List.Perm c9d1 c9d2 ∧
    generateDataHash c9d1 ≠ generateDataHash c9d2 ∧
    getCacheKey "1" 1 (generateDataHash c9d1) ≠
      getCacheKey "1" 1 (generateDataHash c9d2) ∧
    TemplateRenderer.renderTemplate engSample rowA c9d1 none rstate0 =
      (.ok c5Result, c9State1) ∧
    (TemplateRenderer.renderTemplate engSample rowA c9d2 none c9State1).2.compileCount =
      c9State1.compileCount + 2 ∧
    (∀ d1 d2 : TemplateData, jsonStringify d1 = jsonStringify d2 →
      generateDataHash d1 = generateDataHash d2) := by
  refine ⟨List.Perm.swap _ _ _, by decide, by decide, rfl, rfl, ?_⟩
  intro d1 d2 h
  unfold generateDataHash
  rw [h]

/-- Closed instance of the serialization-congruence half of C9. -/
theorem generateDataHash_order_sensitive_witness :
    generateDataHash ([] : TemplateData) = generateDataHash ([] : TemplateData) :=
  generateDataHash_order_sensitive.2.2.2.2.2 [] [] rfl

/-! ### Claim C8: scoped cache invalidation -/

/-- Template identifiers as produced by `id.toString()` on the bigserial
column: strings of decimal digits. -/
abbrev isDigitStr (s : String) : Prop := ∀ c ∈ s.data, c.isDigit = true

/-- For digit strings `la`, `lb`, the delimited prefix
`la ++ "_"` matches `lb ++ "_..."` exactly when `la = lb`: the underscore
delimiter cannot occur inside a digit run. -/
theorem digit_append_prefix_iff : ∀ (la lb l2 : List Char),
    (∀ c ∈ la, c.isDigit = true) → (∀ c ∈ lb, c.isDigit = true) →
    ((la ++ ['_']).isPrefixOf (lb ++ '_' :: l2) = true ↔ la = lb) := by
  intro la
  induction la with
  | nil =>
    intro lb l2 _ hb
    cases lb with
    | nil => simp [List.isPrefixOf]
    | cons b bs =>
      have hbd := hb b (List.mem_cons_self b bs)
      have hne : ('_' : Char) ≠ b := by
        intro hEq
        rw [← hEq] at hbd
        simp at hbd
      simp [List.isPrefixOf, hne]
  | cons a as ih =>
    intro lb l2 ha hb
    have had := ha a (List.mem_cons_self a as)
    cases lb with
    | nil =>
      have hne : a ≠ '_' := by
        intro hEq
        rw [hEq] at had
        simp at had
      simp [List.isPrefixOf, hne]
    | cons b bs =>
      by_cases hab : a = b
      · subst hab
        have has : ∀ c ∈ as, c.isDigit = true :=
          fun c hc => ha c (List.mem_cons_of_mem a hc)
        have hbs : ∀ c ∈ bs, c.isDigit = true :=
          fun c hc => hb c (List.mem_cons_of_mem a hc)
        simp [List.isPrefixOf, ih bs l2 has hbs]
      · simp [List.isPrefixOf, hab]

/-- A shared prefix cancels on both sides of `isPrefixOf`. -/
theorem isPrefixOf_append_same : ∀ (p x y : List Char),
    (p ++ x).isPrefixOf (p ++ y) = x.isPrefixOf y := by
  intro p
  induction p with
  | nil => intro x y; rfl
  | cons c cs ih => intro x y; simp [List.isPrefixOf, ih]

/-- A cache key starts with the invalidation prefix of template `tid`
exactly when it belongs to `tid` (for digit-string identifiers). -/
theorem getCacheKey_startsWith_iff (tid tid' : String) (h : isDigitStr tid)
    (h' : isDigitStr tid') (v : Nat) (dh : String) :
    (jsStartsWith (getCacheKey tid' v dh) ("template_" ++ tid ++ "_") = true) ↔
      tid = tid' := by
  unfold jsStartsWith getCacheKey
  simp only [String.data_append, List.append_assoc]
  rw [isPrefixOf_append_same]
  simp only [List.cons_append, List.nil_append]
  rw [digit_append_prefix_iff tid.data tid'.data _ h h']
  constructor
  · intro hEq
    cases tid
    cases tid'
    exact congrArg String.mk hEq
  · intro hEq
    rw [hEq]

/-- C8: invalidation for a template identifier removes exactly the cache
entries keyed to that identifier — every version and data fingerprint of
it — and no entry of any other identifier: for a cache populated through
`getCacheKey` it acts as a filter on the entry's template id, never a
global flush. -/
theorem invalidateTemplateCache_scoped (tid : String) (hd : isDigitStr tid)
    (entries : List (String × Nat × String × RenderResult))
    (hids : ∀ e ∈ entries, isDigitStr e.1) :
    TemplateRenderer.invalidateTemplateCache tid
        (entries.map (fun e => (getCacheKey e.1 e.2.1 e.2.2.1, e.2.2.2))) =
      (entries.filter (fun e => e.1 != tid)).map
        (fun e => (getCacheKey e.1 e.2.1 e.2.2.1, e.2.2.2)) := by
  induction entries with
  | nil => rfl
  | cons e es ih =>
    have he := hids e (List.mem_cons_self e es)
    have hes : ∀ x ∈ es, isDigitStr x.1 :=
      fun x hx => hids x (List.mem_cons_of_mem e hx)
    unfold TemplateRenderer.invalidateTemplateCache at ih ⊢
    simp only [List.map_cons, List.filter_cons]
    by_cases hx : tid = e.1
    · have hsw : jsStartsWith (getCacheKey e.1 e.2.1 e.2.2.1)
          ("template_" ++ tid ++ "_") = true :=
        (getCacheKey_startsWith_iff tid e.1 hd he _ _).mpr hx
      have hne : (e.1 != tid) = false := by
        rw [← hx]
        simp
      rw [hsw, hne]
      simpa using ih hes
    · have hsw : jsStartsWith (getCacheKey e.1 e.2.1 e.2.2.1)
          ("template_" ++ tid ++ "_") = false := by
        rw [Bool.eq_false_iff]
        intro hc
        exact hx ((getCacheKey_startsWith_iff tid e.1 hd he _ _).mp hc)
      have hne : (e.1 != tid) = true := by
        simp only [bne_iff_ne, ne_eq]
        intro hc
        exact hx hc.symm
      rw [hsw, hne]
      simp only [Bool.not_false, if_true, List.map_cons, List.cons.injEq,
        true_and]
      simpa using ih hes

/-- Closed instance of C8: invalidating template `"1"` on a cache holding
entries for templates `"1"` and `"12"` removes exactly the `"1"` entry and
keeps the `"12"` entry. -/
theorem invalidateTemplateCache_scoped_witness :
    TemplateRenderer.invalidateTemplateCache "1"
        (([("1", 1, "h1", c5Result), ("12", 1, "h1", c5Result)] :
            List (String × Nat × String × RenderResult)).map
          (fun e => (getCacheKey e.1 e.2.1 e.2.2.1, e.2.2.2))) =
      (([("1", 1, "h1", c5Result), ("12", 1, "h1", c5Result)] :
            List (String × Nat × String × RenderResult)).filter
          (fun e => e.1 != "1")).map
        (fun e => (getCacheKey e.1 e.2.1 e.2.2.1, e.2.2.2)) :=
  invalidateTemplateCache_scoped "1" (by decide)
    [("1", 1, "h1", c5Result), ("12", 1, "h1", c5Result)] (by decide)

/-! ### Claim C10: the legacy substitution renderer -/

/-- Unfolding of the scanner at a placeholder match. -/
theorem renderSubst_eq_of_match (vars : TemplateData) (l : List Char)
    (k : String) (r : List Char) (h : matchPlaceholder l = some (k, r)) :
    renderSubst vars l = (substVal vars k).data ++ renderSubst vars r := by
  rw [renderSubst]
  split
  next kr heq =>
    have hkr : kr = (k, r) := Option.some.inj (heq.symm.trans h)
    rw [hkr]
  next heq =>
    rw [heq] at h
    exact absurd h (by simp)

/-- Unfolding of the scanner when no placeholder matches here. -/
theorem renderSubst_eq_of_no_match (vars : TemplateData) (c : Char)
    (cs : List Char) (h : matchPlaceholder (c :: cs) = none) :
    renderSubst vars (c :: cs) = c :: renderSubst vars cs := by
  rw [renderSubst]
  split
  next kr heq =>
    rw [h] at heq
    exact absurd heq (by simp)
  next heq => rfl

/-- No placeholder match begins inside `pre` (scanning `pre ++ rest`). -/
abbrev noPhWithin (pre rest : List Char) : Prop :=
  ∀ i < pre.length, matchPlaceholder (pre.drop i ++ rest) = none

/-- Characters before any placeholder pass through the scanner verbatim. -/
theorem renderSubst_append_of_noPh (m : TemplateData) :
    ∀ (pre rest : List Char), noPhWithin pre rest →
      renderSubst m (pre ++ rest) = pre ++ renderSubst m rest := by
  intro pre
  induction pre with
  | nil => intro rest _; simp
  | cons c cs ih =>
    intro rest h
    have h0 : matchPlaceholder (c :: (cs ++ rest)) = none := by
      have := h 0 (by simp)
      simpa using this
    rw [List.cons_append, renderSubst_eq_of_no_match m _ _ h0]
    rw [ih rest (fun i hi => by
      have := h (i + 1) (by simpa using Nat.succ_lt_succ hi)
      simpa using this)]
    simp

/-- A word character is not whitespace. -/
theorem ws_not_word {c : Char} (h : jsWs c = true) : jsWord c = false := by
  simp only [jsWs, Bool.or_eq_true, decide_eq_true_eq] at h
  rcases h with ((((h | h) | h) | h) | h) | h <;> subst h <;> decide

/-- `takeWhile`/`dropWhile` on a run of the predicate followed by a
non-satisfying character. -/
theorem span_append_of_all {p : Char → Bool} :
    ∀ (l : List Char) (d : Char) (t : List Char),
      (∀ c ∈ l, p c = true) → p d = false →
      (l ++ d :: t).takeWhile p = l ∧ (l ++ d :: t).dropWhile p = d :: t := by
  intro l
  induction l with
  | nil =>
    intro d t _ hd
    constructor
    · rw [List.nil_append, List.takeWhile_cons_of_neg (by simp [hd])]
    · rw [List.nil_append, List.dropWhile_cons_of_neg (by simp [hd])]
  | cons x xs ih =>
    intro d t hl hd
    have hx : p x = true := hl x (List.mem_cons_self x xs)
    have hxs : ∀ c ∈ xs, p c = true := fun c hc => hl c (List.mem_cons_of_mem x hc)
    obtain ⟨h1, h2⟩ := ih d t hxs hd
    constructor
    · rw [List.cons_append, List.takeWhile_cons_of_pos (by simp [hx]), h1]
    · rw [List.cons_append, List.dropWhile_cons_of_pos (by simp [hx]), h2]

/-- A key usable in a placeholder: nonempty and made of word characters. -/
abbrev isWordKey (key : String) : Prop :=
  key.data ≠ [] ∧ ∀ c ∈ key.data, jsWord c = true

/-- The literal placeholder text for a key (no inner whitespace). -/
def phStr (key : String) : String := "\x7b\x7b" ++ key ++ "\x7d\x7d"

/-- The matcher recognizes a well-formed placeholder and consumes exactly
it. -/
theorem matchPlaceholder_placeholder (key : String) (tail : List Char)
    (hk : isWordKey key) :
    matchPlaceholder (lbrace :: lbrace :: (key.data ++ rbrace :: rbrace :: tail)) =
      some (key, tail) := by
  obtain ⟨hne, hw⟩ := hk
  obtain ⟨k0, ks, hks⟩ : ∃ k0 ks, key.data = k0 :: ks := by
    cases hd : key.data with
    | nil => exact absurd hd hne
    | cons a b => exact ⟨a, b, rfl⟩
  have hk0w : jsWord k0 = true := hw k0 (by rw [hks]; exact List.mem_cons_self _ _)
  have hk0ws : jsWs k0 = false := by
    cases hx : jsWs k0 with
    | false => rfl
    | true => rw [ws_not_word hx] at hk0w; exact absurd hk0w (by simp)
  have hdrop1 : (key.data ++ rbrace :: rbrace :: tail).dropWhile jsWs =
      key.data ++ rbrace :: rbrace :: tail := by
    rw [hks, List.cons_append, List.dropWhile_cons_of_neg (by simp [hk0ws])]
  have hrbw : jsWord rbrace = false := by decide
  obtain ⟨htake, hdrop⟩ := span_append_of_all key.data rbrace (rbrace :: tail) hw hrbw
  have hrbws : jsWs rbrace = false := by decide
  simp only [matchPlaceholder]
  rw [if_pos ⟨trivial, trivial⟩, hdrop1, htake, hdrop]
  rw [if_neg hne]
  rw [List.dropWhile_cons_of_neg (by simp [hrbws])]
  rfl

/-- The scanner leaves the empty input empty. -/
theorem renderSubst_nil (m : TemplateData) : renderSubst m [] = [] := by
  rw [renderSubst]
  split
  next kr heq => exact absurd heq (by simp [matchPlaceholder])
  next => rfl

/-- With a variables map present, `renderTemplate` is the scanner on the
input's characters (also for the falsy empty input). -/
theorem renderTemplate_some_eq (s : String) (m : TemplateData) :
    renderTemplate (some s) (some m) = String.mk (renderSubst m s.data) := by
  by_cases h : s = ""
  · subst h
    rw [show renderTemplate (some "") (some m) = "" from rfl,
      show ("" : String).data = [] from rfl, renderSubst_nil]
  · simp only [renderTemplate, jsStrTruthy, if_neg h]

/-- C10: the legacy renderer returns `''` on empty or absent input;
returns the input unchanged when no variables map is supplied; and
otherwise substitutes placeholders: any `\x7b\x7bkey\x7d\x7d` whose
variable is defined and non-null becomes the variable's string value
(via `substVal`), a missing/undefined/null variable becomes the empty
string, and all characters before the placeholder pass through
unchanged while scanning continues in the remainder. -/
theorem renderTemplate_legacy_spec :
    (∀ vars, renderTemplate none vars = "" ∧ renderTemplate (some "") vars = "") ∧
    (∀ s, renderTemplate (some s) none = s) ∧
    (∀ (m : TemplateData) (pre key post : String),
      isWordKey key →
      noPhWithin pre.data ((phStr key).data ++ post.data) →
      renderTemplate (some (pre ++ phStr key ++ post)) (some m) =
        pre ++ substVal m key ++ renderTemplate (some post) (some m)) := by
  refine ⟨?_, ?_, ?_⟩
  · intro vars
    exact ⟨rfl, rfl⟩
  · intro s
    by_cases h : s = ""
    · subst h
      rfl
    · simp only [renderTemplate, jsStrTruthy, if_neg h]
  · intro m pre key post hkey hno
    have hph : (phStr key).data ++ post.data =
        lbrace :: lbrace :: (key.data ++ rbrace :: rbrace :: post.data) := by
      unfold phStr
      simp only [String.data_append, List.append_assoc, List.cons_append,
        List.nil_append]
      rfl
    have hdata : (pre ++ phStr key ++ post).data =
        pre.data ++ ((phStr key).data ++ post.data) := by
      simp [String.data_append, List.append_assoc]
    have hmatch : matchPlaceholder ((phStr key).data ++ post.data) =
        some (key, post.data) := by
      rw [hph]
      exact matchPlaceholder_placeholder key post.data hkey
    have hsubst : renderSubst m ((pre ++ phStr key ++ post).data) =
        pre.data ++ ((substVal m key).data ++ renderSubst m post.data) := by
      rw [hdata]
      rw [renderSubst_append_of_noPh m pre.data _ hno]
      rw [renderSubst_eq_of_match m _ key post.data hmatch]
    rw [renderTemplate_some_eq, renderTemplate_some_eq, hsubst]
    rw [String.ext_iff]
    simp [String.data_append, List.append_assoc]

/-- Closed instance of C10: `"Hi \x7b\x7bname\x7d\x7d!"` with
`name = "Ann"` renders the prefix unchanged and substitutes the
placeholder. -/
theorem renderTemplate_legacy_spec_witness :
    renderTemplate (some ("Hi " ++ phStr "name" ++ "!"))
        (some [("name", JsVal.str "Ann")]) =
      "Hi " ++ substVal [("name", JsVal.str "Ann")] "name" ++
        renderTemplate (some "!") (some [("name", JsVal.str "Ann")]) :=
  renderTemplate_legacy_spec.2.2 [("name", JsVal.str "Ann")] "Hi " "name" "!"
    (by decide) (by decide)

/-! ### Claim C2: retry policy -/

/-- The loop makes at most `fuel` transport attempts. -/
theorem retryGo_attempts_le (send : Nat → Except SendError String)
    (M B : Nat) : ∀ fuel a, (retryGo send M B fuel a).attempts ≤ fuel := by
  intro fuel
  induction fuel with
  | zero => intro a; exact Nat.le_refl 0
  | succ f ih =>
    intro a
    cases hsend : send a with
    | ok info => simp [retryGo, hsend]
    | error err =>
      simp only [retryGo, hsend]
      by_cases hc : M ≤ a ∨ shouldRetry err = false
      · rw [if_pos hc]; simp
      · rw [if_neg hc]
        have := ih (a + 1)
        simp only []
        omega

/-- With fuel left, the loop attempts the transport at least once. -/
theorem retryGo_attempts_pos (send : Nat → Except SendError String)
    (M B : Nat) : ∀ fuel a, 1 ≤ fuel → 1 ≤ (retryGo send M B fuel a).attempts := by
  intro fuel a hf
  cases fuel with
  | zero => omega
  | succ f =>
    cases hsend : send a with
    | ok info => simp [retryGo, hsend]
    | error err =>
      simp only [retryGo, hsend]
      by_cases hc : M ≤ a ∨ shouldRetry err = false
      · rw [if_pos hc]
      · rw [if_neg hc]
        simp only []
        omega

/-- The backoff sleeps are exactly `baseDelay * 2^(attempt-1)` for the
attempts that were retried (one sleep before each retry, none before the
first attempt). -/
theorem retryGo_sleeps (send : Nat → Except SendError String) (M B : Nat) :
    ∀ fuel a, 1 ≤ a → M + 1 ≤ a + fuel →
      (retryGo send M B fuel a).sleeps =
        (List.range ((retryGo send M B fuel a).attempts - 1)).map
          (fun i => B * 2 ^ (a - 1 + i)) := by
  intro fuel
  induction fuel with
  | zero => intro a _ _; rfl
  | succ f ih =>
    intro a ha hinv
    cases hsend : send a with
    | ok info => simp [retryGo, hsend]
    | error err =>
      simp only [retryGo, hsend]
      by_cases hc : M ≤ a ∨ shouldRetry err = false
      · rw [if_pos hc]; rfl
      · rw [if_neg hc]
        have hal : a < M := by
          rcases Nat.lt_or_ge a M with h | h
          · exact h
          · exact absurd (Or.inl h) hc
        have hfpos : 1 ≤ f := by omega
        have hapos := retryGo_attempts_pos send M B f (a + 1) hfpos
        have hrec := ih (a + 1) (by omega) (by omega)
        simp only []
        rw [hrec]
        obtain ⟨r, hr⟩ : ∃ r, (retryGo send M B f (a + 1)).attempts = r + 1 :=
          ⟨(retryGo send M B f (a + 1)).attempts - 1,
            (Nat.succ_pred_eq_of_pos hapos).symm⟩
        rw [hr]
        simp only [Nat.add_sub_cancel, List.range_succ_eq_map, List.map_cons,
          List.map_map, List.cons.injEq]
        constructor
        · simp
        · apply List.map_congr_left
          intro i _
          simp only [Function.comp_apply]
          congr 1
          congr 1
          omega

/-- Every retried attempt (all but the last) failed with a
retry-classified (transient) error. -/
theorem retryGo_transient (send : Nat → Except SendError String) (M B : Nat) :
    ∀ fuel a k, a ≤ k → k + 1 < a + (retryGo send M B fuel a).attempts →
      ∃ e, send k = .error e ∧ shouldRetry e = true := by
  intro fuel
  induction fuel with
  | zero =>
    intro a k hak hlt
    simp only [retryGo] at hlt
    omega
  | succ f ih =>
    intro a k hak hlt
    cases hsend : send a with
    | ok info =>
      simp only [retryGo, hsend] at hlt
      omega
    | error err =>
      simp only [retryGo, hsend] at hlt
      by_cases hc : M ≤ a ∨ shouldRetry err = false
      · rw [if_pos hc] at hlt
        simp only [] at hlt
        omega
      · rw [if_neg hc] at hlt
        simp only [] at hlt
        have hretry : shouldRetry err = true := by
          rcases Bool.eq_false_or_eq_true (shouldRetry err) with h | h
          · exact h
          · exact absurd (Or.inr h) hc
        rcases Nat.eq_or_lt_of_le hak with hk | hk
        · exact ⟨err, by rw [← hk]; exact hsend, hretry⟩
        · exact ih (a + 1) k hk (by omega)

/-- The loop's exit state reflects the outcome of its last attempt. -/
theorem retryGo_result_last (send : Nat → Except SendError String) (M B : Nat) :
    ∀ fuel a,
      (∀ i, (retryGo send M B fuel a).result = .success i →
        send (a + (retryGo send M B fuel a).attempts - 1) = .ok i) ∧
      (∀ e, (retryGo send M B fuel a).result = .failure e →
        send (a + (retryGo send M B fuel a).attempts - 1) = .error e) := by
  intro fuel
  induction fuel with
  | zero =>
    intro a
    constructor
    · intro i hi; exact absurd hi (by simp [retryGo])
    · intro e he; exact absurd he (by simp [retryGo])
  | succ f ih =>
    intro a
    cases hsend : send a with
    | ok info =>
      simp only [retryGo, hsend]
      constructor
      · intro i hi
        simp only [Nat.add_sub_cancel]
        rw [hsend]
        simp only [LoopExit.success.injEq] at hi
        rw [hi]
      · intro e he
        exact absurd he (by simp)
    | error err =>
      simp only [retryGo, hsend]
      by_cases hc : M ≤ a ∨ shouldRetry err = false
      · rw [if_pos hc]
        constructor
        · intro i hi
          exact absurd hi (by simp)
        · intro e he
          simp only [Nat.add_sub_cancel]
          rw [hsend]
          simp only [LoopExit.failure.injEq] at he
          rw [he]
      · rw [if_neg hc]
        simp only []
        have harith : a + ((retryGo send M B f (a + 1)).attempts + 1) - 1 =
            a + 1 + (retryGo send M B f (a + 1)).attempts - 1 := by omega
        constructor
        · intro i hi
          rw [harith]
          exact (ih (a + 1)).1 i hi
        · intro e he
          rw [harith]
          exact (ih (a + 1)).2 e he

/-- With fuel covering the remaining attempts up to the ceiling, the loop
body runs: the exit is a success or a failure, never `skipped`. -/
theorem retryGo_not_skipped (send : Nat → Except SendError String) (M B : Nat) :
    ∀ fuel a, 1 ≤ fuel → M + 1 ≤ a + fuel →
      (retryGo send M B fuel a).result ≠ .skipped := by
  intro fuel
  induction fuel with
  | zero => intro a hf _; omega
  | succ f ih =>
    intro a _ hinv
    cases hsend : send a with
    | ok info => simp [retryGo, hsend]
    | error err =>
      simp only [retryGo, hsend]
      by_cases hc : M ≤ a ∨ shouldRetry err = false
      · rw [if_pos hc]; simp
      · rw [if_neg hc]
        simp only []
        have hal : a < M := by
          rcases Nat.lt_or_ge a M with h | h
          · exact h
          · exact absurd (Or.inl h) hc
        exact ih (a + 1) (by omega) (by omega)

/-- C2: with the default ceiling 3 and base delay 500ms, the transport is
invoked at most 3 times; the sleeps are exactly `500 * 2^(attempt-1)`
before each retry (so at most `[500, 1000]`) and none before the first
attempt; every retried attempt failed with a transient-classified error
(listed network code or SMTP 421/450/451/452); a non-transient failure on
the first attempt aborts after exactly one attempt with that error; and
exhausting the ceiling surfaces the last attempt's error. -/
theorem sendEmailRetry_policy (send : Nat → Except SendError String) :
    (sendEmailRetry send 3 500).attempts ≤ 3 ∧
    (sendEmailRetry send 3 500).sleeps =
      (List.range ((sendEmailRetry send 3 500).attempts - 1)).map
        (fun i => 500 * 2 ^ i) ∧
    (∀ k, 1 ≤ k → k < (sendEmailRetry send 3 500).attempts →
      ∃ e, send k = .error e ∧ shouldRetry e = true) ∧
    (∀ e, send 1 = .error e → shouldRetry e = false →
      sendEmailRetry send 3 500 =
        { result := .failure e, attempts := 1, sleeps := [] }) ∧
    (∀ e, (sendEmailRetry send 3 500).attempts = 3 → send 3 = .error e →
      (sendEmailRetry send 3 500).result = .failure e) := by
  refine ⟨retryGo_attempts_le send 3 500 3 1, ?_, ?_, ?_, ?_⟩
  · have := retryGo_sleeps send 3 500 3 1 (by omega) (by omega)
    unfold sendEmailRetry
    rw [this]
    apply List.map_congr_left
    intro i _
    simp
  · intro k hk hlt
    unfold sendEmailRetry at hlt
    exact retryGo_transient send 3 500 3 1 k hk (by omega)
  · intro e hsend hperm
    unfold sendEmailRetry
    simp only [retryGo, hsend]
    rw [if_pos (Or.inr hperm)]
  · intro e hatt hsend
    have hns := retryGo_not_skipped send 3 500 3 1 (by omega) (by omega)
    have hlast := retryGo_result_last send 3 500 3 1
    unfold sendEmailRetry at hatt hns hlast ⊢
    cases hres : (retryGo send 3 500 3 1).result with
    | skipped => exact absurd hres hns
    | success i =>
      have := hlast.1 i hres
      rw [hatt] at this
      simp only [show 1 + 3 - 1 = 3 by omega] at this
      rw [hsend] at this
      exact absurd this (by simp)
    | failure e' =>
      have := hlast.2 e' hres
      rw [hatt] at this
      simp only [show 1 + 3 - 1 = 3 by omega] at this
      rw [hsend] at this
      rw [Except.error.inj this]

/-- A permanent authentication failure used in concrete dispatch runs. -/
def permErr : SendError :=
  { code := some (.str "EAUTH"), responseCode := none, message := "Invalid login" }

/-- Closed instance of C2's permanent-failure clause: a non-transient
error on attempt 1 stops the loop after exactly one attempt with no
sleeps, surfacing that error. -/
theorem sendEmailRetry_policy_witness :
    sendEmailRetry (fun _ => .error permErr) 3 500 =
      { result := .failure permErr, attempts := 1, sleeps := [] } :=
  (sendEmailRetry_policy (fun _ => .error permErr)).2.2.2.1 permErr rfl (by decide)

/-! ### Claims C1 and C3: fallback rendering and failure logging -/

/-- Tenant used in concrete dispatch runs. -/
def tenant0 : Tenant := { id := "t1", from_email := "noreply@t1.example" }

/-- A template-mode request carrying NO raw content (no subject, htmlBody
or textBody). -/
def c1body : SendBody :=
  { templateSlug := some "contact-form"
    templateData := some []
    toRecipients := some ["a@example.com"]
    version := none
    ovSubject := none
    ovHtml := none
    ovText := none
    subject := none
    htmlBody := none
    textBody := none
    variablesMap := none }

/-- Empty log store with the serial at 1. -/
def logDb0 : LogDb := { committed := [], txn := none, nextId := 1 }

/-- A renderer collaborator that always fails. -/
def c1render : TemplateRow → TemplateData → Except String RenderResult :=
  fun _ _ => .error "Template rendering failed: Error: boom"

/-- C1, counterexample.  A template-mode request with no raw content whose
render fails: the claim says the render error propagates and no dispatch
occurs, but the code's catch-all fallback swallows the error
unconditionally — the transport is called once, a log row is written and
committed as `sent` with the fallback subject `Email` and empty body, and
the caller receives a success response. -/
theorem sendEmailTemplate_render_error_still_dispatches :
    sendEmailTemplate tenant0 c1body [rowA] c1render (fun _ => .ok "mid-1")
        3 500 logDb0 =
      { db :=
          { committed := [
              { id := 1
                tenant_id := "t1"
                to_address := "a@example.com"
                subject := "Email"
                status := "sent"
                error_message := none }]
            txn := none
            nextId := 2 }
        response := .ok "mid-1"
        transportCalls := 1 } := rfl

/-- C1 (amended): when rendering the resolved template fails,
`renderEmailContent` always degrades to legacy-style direct substitution
of the raw content fields (yielding subject `Email` and empty html/text
when none are present) with the fallback flag set — the render error
never propagates — and the dispatch pipeline proceeds to call the
transport at least once. -/
theorem renderEmailContent_fallback (body : SendBody) (rec : TemplateRow)
    (td : TemplateData)
    (render : TemplateRow → TemplateData → Except String RenderResult)
    (e : String) (hrender : render rec td = .error e) :
    renderEmailContent .template body (some rec) (some td) render =
      .ok (legacyContent body true) ∧
    ∀ (tenant : Tenant) (templates : List TemplateRow) (slug : String)
      (toL : List String) (transport : Nat → Except SendError String)
      (B : Nat) (s0 : LogDb),
      jsStrTruthy body.templateSlug = some slug →
      body.templateData = some td →
      body.toRecipients = some toL →
      resolveTemplate templates tenant.id slug body.version = some rec →
      1 ≤ (sendEmailTemplate tenant body templates render transport 3 B
        s0).transportCalls := by
  have hfall : renderEmailContent .template body (some rec) (some td) render =
      .ok (legacyContent body true) := by
    simp only [renderEmailContent, hrender]
  refine ⟨hfall, ?_⟩
  intro tenant templates slug toL transport B s0 hslug htd htoL hres
  have hns := retryGo_not_skipped transport 3 B 3 1 (by omega) (by omega)
  have hpos := retryGo_attempts_pos transport 3 B 3 1 (by omega)
  simp only [sendEmailTemplate, htd, htoL, hslug, hres, hfall]
  cases hres2 : (sendEmailRetry transport 3 B).result with
  | success mid => exact hpos
  | failure err => exact hpos
  | skipped => exact absurd hres2 hns

/-- Closed instance of the amended C1: the failing render on `c1body`
(no raw content) yields the `Email`/empty fallback and the dispatch still
reaches the transport. -/
theorem renderEmailContent_fallback_witness :
    renderEmailContent .template c1body (some rowA) (some []) c1render =
      .ok (legacyContent c1body true) ∧
    1 ≤ (sendEmailTemplate tenant0 c1body [rowA] c1render
        (fun _ => .ok "mid-1") 3 500 logDb0).transportCalls := by
  have h := renderEmailContent_fallback c1body rowA [] c1render
    "Template rendering failed: Error: boom" rfl
  exact ⟨h.1, h.2 tenant0 [rowA] "contact-form" ["a@example.com"]
    (fun _ => .ok "mid-1") 500 logDb0 rfl rfl rfl rfl⟩

/-- A renderer collaborator that succeeds. -/
def c3render : TemplateRow → TemplateData → Except String RenderResult :=
  fun _ _ => .ok { html := "<p>Hi</p>", text := "Hi", subject := "Welcome" }

/-- C3, the code at the failing input.  A dispatch whose delivery fails
permanently surfaces the error to the caller, but the log store ends up
EMPTY: the `sending` row was inserted inside the transaction that the
catch block `ROLLBACK`s, so the follow-up `failed`-status `UPDATE`
matches no row and neither the `failed` status nor the error text is
persisted. -/
theorem sendEmailTemplate_failed_row_lost :
    sendEmailTemplate tenant0 c1body [rowA] c3render (fun _ => .error permErr)
        3 500 logDb0 =
      { db := { committed := [], txn := none, nextId := 2 }
        response := .error (.deliveryError permErr)
        transportCalls := 1 } := rfl
